import Mathlib

/-
Verification of the LOMP runtime (parallel-runtimes/lomp) loop scheduling,
barrier, tasking and ICV code against its specification.  The definitions
below are shallow embeddings of the C++ sources: loops.h / loops.cc
(canonicalLoop, contiguousWork, the schedule table and the dispatch
functions), barrier_impl.cc (atomicCounter, centralizedBarrier),
threads.cc / barriers.h (the outer check-in wrapper), tasking.cc
(TaskPoolDeque, StoreTask, TaskExecutionBarrier), entrypoints.cc
(fork, ICV inquiry) and util.cc (fatalError).  Machine integers are
modelled as Nat / Int; the loop arithmetic stays far from the 32/64 bit
wrap in all properties considered here.
-/

namespace lomp

/-! ## canonicalLoop (loops.h, LLVM branch: base = 0, incr = 1) -/

/-- Chunk-indexed canonical loop, the compiled branch of loops.h
(ICC_SUPPORTED is never defined): base = 0 and incr = 1 are compile-time
constants; the fields are the original inclusive end, the scale
(chunk times incr) and the number of chunks. -/
structure canonicalLoop where
  loopEnd : Int
  scale : Int
  count : Nat
deriving Repr, DecidableEq

/-- init of loops.h (LLVM branch): count = end + 1 scaled down by the
chunk size, scale = chunk.  The intermediate count is an unsigned value;
Int.toNat models the conversion for end ≥ -1. -/
def canonicalLoop.init (e : Int) (chunk : Nat) : canonicalLoop :=
  { loopEnd := e, scale := (chunk : Int), count := ((e + 1).toNat + chunk - 1) / chunk }

/-- isLastChunk: unsignedType(iteration) == count - 1, written without the
unsigned wrap (equivalent for the in-range indices that reach it). -/
def canonicalLoop.isLastChunk (cl : canonicalLoop) (iteration : Int) : Bool :=
  iteration + 1 == (cl.count : Int)

/-- getChunkLower: base + iteration * scale with base = 0. -/
def canonicalLoop.getChunkLower (cl : canonicalLoop) (iteration : Int) : Int :=
  0 + iteration * cl.scale

/-- getChunkUpper: lower + scale - 1, clipped to the original end on the
last chunk. -/
def canonicalLoop.getChunkUpper (cl : canonicalLoop) (iteration : Int) : Int :=
  if cl.isLastChunk iteration then cl.loopEnd
  else cl.getChunkLower iteration + cl.scale - 1

/-- getStride of loops.h. -/
def canonicalLoop.getStride (cl : canonicalLoop) (b e : Int) : Int :=
  cl.getChunkUpper e - cl.getChunkLower b + 1

/-! ## Schedule kinds

Modelled from the spec: interface.h, which declares the kmp_sched_t
enumeration, is not among the sources; only equality of the enumerators
matters to the code in loops.cc, so the internal schedule kinds are
modelled as a base kind paired with an optional monotonicity modifier,
exactly the combinations the schedules table of loops.cc uses. -/

inductive kmp_base where
  | sch_static_chunked
  | sch_static
  | sch_dynamic_chunked
  | sch_guided_chunked
  | sch_runtime
  | sch_auto
  | sch_imbalanced
deriving Repr, DecidableEq

inductive kmp_mod where
  | mod_none
  | mod_monotonic
  | mod_nonmonotonic
deriving Repr, DecidableEq

/-- Modelled from the spec: an internal (kmp_sched_t) schedule as used by
loops.cc, a base kind possibly or-ed with a monotonicity modifier bit. -/
structure kmp_sched where
  base : kmp_base
  modifier : kmp_mod
deriving Repr, DecidableEq

/-! ## forStaticInit (loops.cc) -/

/-- Out parameters of __kmpc_for_static_init as written back by
canonicalLoop::forStaticInit, together with its return value. -/
structure staticInitResult where
  plastIter : Bool
  plower : Int
  pupper : Int
  pstride : Int
  retval : Bool
deriving Repr, DecidableEq

/-- canonicalLoop::forStaticInit of loops.cc.  lower0 and upper0 are the
incoming values of the lower/upper out-parameters, which a zero-trip loop
leaves untouched; an unknown static schedule hits fatalError (none). -/
def canonicalLoop.forStaticInit (cl : canonicalLoop) (schedtype : kmp_base)
    (me numThreads : Nat) (lower0 upper0 : Int) : Option staticInitResult :=
  if cl.count = 0 then
    some { plastIter := false, plower := lower0, pupper := upper0,
           pstride := 1, retval := false }
  else
    let wholeIters := cl.count / numThreads
    let leftover := cl.count % numThreads
    match schedtype with
    | .sch_static =>
      let myBase : Nat :=
        if me < leftover then me * (wholeIters + 1) else me * wholeIters + leftover
      let extras : Int := if me < leftover then 1 else 0
      some { plastIter := if cl.count < numThreads
                          then decide (me + 1 = cl.count)
                          else decide (me + 1 = numThreads),
             plower := cl.getChunkLower (myBase : Int),
             pupper := cl.getChunkUpper ((myBase : Int) + (wholeIters : Int) - 1) + extras * 1,
             pstride := (cl.count : Int),
             retval := decide (me < cl.count) }
    | .sch_static_chunked =>
      some { plastIter := decide (me = (cl.count - 1) % numThreads),
             plower := 0 + (me : Int) * cl.scale,
             pupper := 0 + ((me : Int) + 1) * cl.scale - 1,
             pstride := (numThreads : Int) * cl.scale,
             retval := decide (me < cl.count) }
    | _ => none

/-! ## Schedule table and the schedule ICVs (loops.cc, omp.h) -/

def omp_sched_static : Nat := 1
def omp_sched_dynamic : Nat := 2
def omp_sched_guided : Nat := 3
def omp_sched_auto : Nat := 4
def lomp_sched_imbalanced : Nat := 32
def omp_sched_monotonic : Nat := 0x80000000

/-- The schedules table of loops.cc in source order: name, internal
(kmp_sched_t) value, external (omp_sched_t) value.  Or-ing the monotonic
bit onto an external value is addition, the bit being disjoint from the
low kind bits. -/
def schedules : List (String × kmp_sched × Nat) :=
  [ ("static", ⟨.sch_static, .mod_none⟩, omp_sched_static),
    ("static", ⟨.sch_static_chunked, .mod_none⟩, omp_sched_static),
    ("monotonic:static", ⟨.sch_static, .mod_none⟩,
      omp_sched_static + omp_sched_monotonic),
    ("nonmonotonic:static", ⟨.sch_static, .mod_none⟩, omp_sched_static),
    ("auto", ⟨.sch_static, .mod_none⟩, omp_sched_auto),
    ("guided", ⟨.sch_guided_chunked, .mod_none⟩, omp_sched_guided),
    ("monotonic:guided", ⟨.sch_guided_chunked, .mod_none⟩,
      omp_sched_guided + omp_sched_monotonic),
    ("nonmonotonic:guided", ⟨.sch_guided_chunked, .mod_none⟩, omp_sched_guided),
    ("dynamic", ⟨.sch_dynamic_chunked, .mod_nonmonotonic⟩, omp_sched_dynamic),
    ("nonmonotonic:dynamic", ⟨.sch_dynamic_chunked, .mod_nonmonotonic⟩,
      omp_sched_dynamic),
    ("monotonic:dynamic", ⟨.sch_dynamic_chunked, .mod_monotonic⟩,
      omp_sched_dynamic + omp_sched_monotonic),
    ("imbalanced", ⟨.sch_imbalanced, .mod_none⟩, lomp_sched_imbalanced) ]

/-- externaliseSchedule of loops.cc: first table entry with this internal
value; none models the fatalError on an unknown internal schedule. -/
def externaliseSchedule (internal : kmp_sched) : Option Nat :=
  (schedules.find? (fun s => decide (s.2.1 = internal))).map (fun s => s.2.2)

/-- internaliseSchedule of loops.cc: first table entry with this external
value; none models the fatalError on an unknown external schedule. -/
def internaliseSchedule (external : Nat) : Option kmp_sched :=
  (schedules.find? (fun s => decide (s.2.2 = external))).map (fun s => s.2.1)

/-- setScheduleInfo of loops.cc: internalise, promote plain static with a
nonzero chunk to static_chunked, and store the pair in the team.  The
chunk travels int to uint32_t and back, an exact round trip for in-range
values, so it is kept as Int. -/
def setScheduleInfo (sched : Nat) (chunk : Int) : Option (kmp_sched × Int) :=
  (internaliseSchedule sched).map (fun internal =>
    (if internal = ⟨.sch_static, .mod_none⟩ ∧ chunk ≠ 0
     then (⟨.sch_static_chunked, .mod_none⟩ : kmp_sched) else internal, chunk))

/-- getScheduleInfo of loops.cc, reading back the stored team setting. -/
def getScheduleInfo (stored : kmp_sched × Int) : Option (Nat × Int) :=
  (externaliseSchedule stored.1).map (fun ext => (ext, stored.2))

/-- set_schedule directly followed by get_schedule. -/
def scheduleRoundTrip (sched : Nat) (chunk : Int) : Option (Nat × Int) :=
  (setScheduleInfo sched chunk).bind getScheduleInfo

/-! ## Dynamic dispatch functions (loops.cc) -/

/-- Out parameters of one dispatch_next call. -/
structure dispatchResult where
  p_lb : Int
  p_ub : Int
  p_st : Int
  p_last : Bool
deriving Repr, DecidableEq

/-- dynamicLoop::dispatchStaticChunked of loops.cc: a cursor past the
chunk count means no work; otherwise the call returns the bounds of the
chunk at the cursor, a stride of threadCount times the getStride value
over the window reaching threadCount chunks further, the last-chunk flag,
and the cursor advanced by threadCount. -/
def dispatchStaticChunked (cl : canonicalLoop) (threadCount myChunk : Nat) :
    Option (dispatchResult × Nat) :=
  if myChunk ≥ cl.count then none
  else
    some ({ p_lb := cl.getChunkLower (myChunk : Int),
            p_ub := cl.getChunkUpper (myChunk : Int),
            p_st := (threadCount : Int) *
              cl.getStride (myChunk : Int) ((myChunk : Int) + (threadCount : Int)),
            p_last := cl.isLastChunk (myChunk : Int) },
          myChunk + threadCount)

/-- dynamicLoop::dispatchGuided of loops.cc on the path where the
compare-exchange succeeds (sequential model over the shared cursor):
nothing remaining means no work; otherwise the cursor advances by half,
rounded up, of the ceiling fair share of the remaining chunks. -/
def dispatchGuided (cl : canonicalLoop) (threadCount nextIteration : Nat) :
    Option (dispatchResult × Nat) :=
  let remaining := cl.count - nextIteration
  if remaining = 0 then none
  else
    let myShare := (remaining + threadCount - 1) / threadCount
    let delta := (myShare + 1) / 2
    let lastIteration := nextIteration + delta - 1
    some ({ p_lb := cl.getChunkLower (nextIteration : Int),
            p_ub := cl.getChunkUpper (lastIteration : Int),
            p_st := cl.getStride (nextIteration : Int) (lastIteration : Int),
            p_last := cl.isLastChunk (lastIteration : Int) },
          nextIteration + delta)

/-! ## contiguousWork (loops.h / loops.cc) -/

/-- contiguousWork of loops.h: an atomic (base, end) pair in half-open
convention, the stealing flag and the started-iterations counter.
The end field is named endv since end is reserved. -/
structure contiguousWork where
  base : Nat
  endv : Nat
  stealing : Bool
  iterationsStarted : Nat
deriving Repr, DecidableEq

/-- contiguousWork::trySteal of loops.cc, on the path where the wide
compare-exchange succeeds (no interference): an empty or invalid range
fails and changes nothing; otherwise the end moves down by half of the
available work rounded up, and the out-parameters receive the stolen
half-open range. -/
def contiguousWork.trySteal (w : contiguousWork) :
    contiguousWork × Option (Nat × Nat) :=
  if w.base ≥ w.endv then (w, none)
  else
    let available := w.endv - w.base
    let newEnd := w.endv - (available + 1) / 2
    ({ w with endv := newEnd }, some (newEnd, w.endv))

/-! ## Task pool (tasking.cc, TaskPoolDeque, the compiled-in default) -/

def TASK_POOL_MAX_SIZE : Nat := 128

/-- TaskPoolDeque of tasking.cc: a bounded deque of task handles under a
mutex, with the running taskCount the code keeps next to the deque.
The list front is the oldest entry (push_back appends). -/
structure TaskPoolDeque where
  taskCount : Nat
  pool : List Nat
deriving Repr, DecidableEq

/-- put: refuse when taskCount has reached the capacity, else push_back. -/
def TaskPoolDeque.put (q : TaskPoolDeque) (task : Nat) : TaskPoolDeque × Bool :=
  if q.taskCount ≥ TASK_POOL_MAX_SIZE then (q, false)
  else ({ taskCount := q.taskCount + 1, pool := q.pool ++ [task] }, true)

/-- get (owner side): pop_back, the most recently put entry. -/
def TaskPoolDeque.get (q : TaskPoolDeque) : TaskPoolDeque × Option Nat :=
  if 0 < q.taskCount then
    ({ taskCount := q.taskCount - 1, pool := q.pool.dropLast }, q.pool.getLast?)
  else (q, none)

/-- steal (thief side): pop_front, the least recently put entry. -/
def TaskPoolDeque.steal (q : TaskPoolDeque) : TaskPoolDeque × Option Nat :=
  if 0 < q.taskCount then
    ({ taskCount := q.taskCount - 1, pool := q.pool.tail }, q.pool.head?)
  else (q, none)

/-- StoreTask of tasking.cc: try to put the task into the pool; when the
pool is full, invoke it immediately.  The third component lists the tasks
invoked immediately instead of being deferred. -/
def StoreTask (q : TaskPoolDeque) (task : Nat) : TaskPoolDeque × Bool × List Nat :=
  let r := q.put task
  if r.2 then (r.1, true, []) else (r.1, false, [task])

/-- Well-formedness the pool code maintains: taskCount mirrors the deque
size and never exceeds the capacity. -/
def TaskPoolDeque.wf (q : TaskPoolDeque) : Prop :=
  q.taskCount = q.pool.length ∧ q.pool.length ≤ TASK_POOL_MAX_SIZE

/-! ## Team state and ICV inquiry (threads.h, entrypoints.cc) -/

/-- The ThreadTeam fields the claims touch: the team size and the
parallel-active flag. -/
structure TeamState where
  NThreads : Nat
  Parallel : Bool
deriving Repr, DecidableEq

/-- omp_get_thread_num of entrypoints.cc: the local id inside a parallel
region, 0 outside. -/
def omp_get_thread_num (team : TeamState) (localId : Nat) : Nat :=
  if team.Parallel then localId else 0

/-- omp_get_num_threads of entrypoints.cc: the team size inside a parallel
region, 1 outside. -/
def omp_get_num_threads (team : TeamState) : Nat :=
  if team.Parallel then team.NThreads else 1

/-! ## Static blocked distribution helpers -/

/-- The chunk index at which the block of thread me starts under the
static blocked schedule: thread me owns the chunks from startId me up to
but excluding startId (me + 1). -/
def startId (count N me : Nat) : Nat :=
  me * (count / N) + min me (count % N)

/-- The canonical loop over count chunks of scale 1 (chunk size 1 with
unit increment), the shape in which the blocked claim counts chunks. -/
def unitLoop (count : Nat) : canonicalLoop :=
  canonicalLoop.init ((count : Int) - 1) 1

/-- The contiguous block of chunk indices forStaticInit hands a thread,
read off the returned lower and upper bounds. -/
def blockOf (cl : canonicalLoop) (N me : Nat) : Finset Int :=
  (cl.forStaticInit .sch_static me N 0 cl.loopEnd).elim ∅
    (fun r => Finset.Icc r.plower r.pupper)

/-! ## Task drain at barriers (tasking.cc TaskExecutionBarrier,
threads.cc Barrier::checkIn wrapper, and its call sites) -/

/-- The drain loop of Tasking::TaskExecutionBarrier: while the team-wide
active-task counter differs from the goal, run ScheduleTask.  Sequential
model: the available tasks form a list, running one removes it and its
completion bookkeeping decrements the counter; an empty list with the goal
not reached means the loop spins forever waiting on other threads (none). -/
def drainLoop (goal : Nat) : Nat → List Nat → Option (Nat × List Nat)
  | activeTasks, [] =>
    if activeTasks = goal then some (activeTasks, []) else none
  | activeTasks, t :: ts =>
    if activeTasks = goal then some (activeTasks, t :: ts)
    else drainLoop goal (activeTasks - 1) ts

/-- Tasking::TaskExecutionBarrier of tasking.cc: the drain goal is the
team size for an internal barrier and 0 otherwise. -/
def TaskExecutionBarrier (internalBarrier : Bool) (teamSize activeTasks : Nat)
    (tasks : List Nat) : Option (Nat × List Nat) :=
  drainLoop (if internalBarrier then teamSize else 0) activeTasks tasks

/-- Barrier::checkIn(int me, bool internalBarrier) of threads.cc: the
non-virtual outer wrapper first runs TaskExecutionBarrier and only then
dispatches the virtual check-in, abstracted as a function of the caller. -/
def checkInOuter (virtCheckIn : Nat → Bool) (me : Nat) (internalBarrier : Bool)
    (teamSize activeTasks : Nat) (tasks : List Nat) :
    Option (Bool × Nat × List Nat) :=
  (TaskExecutionBarrier internalBarrier teamSize activeTasks tasks).map
    (fun s => (virtCheckIn me, s.1, s.2))

/-- The second argument the fork/join barrier check-ins pass to the outer
wrapper: false both in __kmpc_fork_call (entrypoints.cc, thread 0 joining)
and in Thread::outerLoop (threads.cc, workers joining). -/
def forkBarrierInternalArg : Bool := false

/-- The second argument Barrier::fullBarrier (barriers.h), used for the
user-level barrier inside a region, passes to the outer wrapper: true. -/
def fullBarrierInternalArg : Bool := true

/-! ## Atomic check-in counter (barrier_impl.cc) -/

/-- atomicCounter of barrier_impl.cc: the arrival count and the expected
number of threads. -/
structure atomicCounter where
  present : Nat
  num : Nat
deriving Repr, DecidableEq

/-- atomicCounter::checkIn: a single atomic increment; the return value
reports whether the caller is thread 0. -/
def atomicCounter.checkIn (c : atomicCounter) (me : Nat) : atomicCounter × Bool :=
  ({ c with present := c.present + 1 }, decide (me = 0))

/-- atomicCounter::reset. -/
def atomicCounter.reset (c : atomicCounter) : atomicCounter :=
  { c with present := 0 }

/-- A linearized barrier round: the threads check in one after the other
in the given arrival order; each arrival is recorded with the value its
check-in returned. -/
def runCheckIns : atomicCounter → List Nat → atomicCounter × List (Nat × Bool)
  | c, [] => (c, [])
  | c, me :: rest =>
    let s := c.checkIn me
    let r := runCheckIns s.1 rest
    (r.1, (me, s.2) :: r.2)

/-- centralizedBarrier::checkIn root path of barrier_impl.cc: the thread
whose counter check-in returned true waits until everyone has arrived and
then resets the counter.  none models the root still spinning in wait. -/
def centralizedRootCheckIn (c : atomicCounter) : Option atomicCounter :=
  if c.present = c.num then some c.reset else none

/-! ## Fork (entrypoints.cc __kmpc_fork_call, util.cc fatalError) -/

inductive ErrorKind where
  | NestedParallel
deriving Repr, DecidableEq

/-- Observable steps of a successful fork, each paired below with the
value of the parallel-active flag while it runs. -/
inductive ForkEvent where
  | wakeUpWorkers
  | runBodyOnMaster
  | checkInBarrier (internalBarrier : Bool)
deriving Repr, DecidableEq

/-- The abort produced by fatalError: the error kind, the writes made to
standard error, and the team state at the abort. -/
structure FatalAbort where
  kind : ErrorKind
  stderrWrites : List String
  teamAtAbort : TeamState
deriving Repr, DecidableEq

/-- fatalError of util.cc builds one buffer holding the fatal tag, the
formatted message and a trailing newline, and writes it to standard error
in a single write before aborting. -/
def fatalErrorDiagnostic (msg : String) : String :=
  "LOMP:***FATAL ERROR*** " ++ msg ++ "\n"

/-- __kmpc_fork_call of entrypoints.cc.  A team already in parallel hits
fatalError (NestedParallel) with the team untouched; otherwise the team
enters parallel, the barrier wakes the workers with the InvocationInfo,
thread 0 runs the body, checks in to the join barrier with
internalBarrier = false, and the flag is cleared before returning.  Each
event is paired with the parallel-active flag while it happens. -/
def kmpc_fork_call (team : TeamState) (locName : String) :
    Except FatalAbort (List (ForkEvent × Bool) × TeamState) :=
  if team.Parallel then
    .error { kind := .NestedParallel,
             stderrWrites := [fatalErrorDiagnostic
               ("Nested parallelism is not supported: attempted from " ++ locName)],
             teamAtAbort := team }
  else
    .ok ([(.wakeUpWorkers, true), (.runBodyOnMaster, true),
          (.checkInBarrier false, true)],
         { team with Parallel := false })

/-! # Theorems -/

/-- Any completed drain loop stops exactly at its goal. -/
theorem drainLoop_stops_at_goal (goal : Nat) :
    ∀ (activeTasks : Nat) (tasks : List Nat) (r : Nat × List Nat),
      drainLoop goal activeTasks tasks = some r → r.1 = goal := by
  intro a tasks
  induction tasks generalizing a with
  | nil =>
    intro r h
    simp only [drainLoop] at h
    split at h
    next heq => cases h; exact heq
    next => cases h
  | cons t ts ih =>
    intro r h
    simp only [drainLoop] at h
    split at h
    next heq => cases h; exact heq
    next => exact ih (a - 1) r h

/-- C3: trySteal on an empty or inverted range fails and leaves the work
descriptor unchanged; on a nonempty range (b, e) it moves the pair to
(b, e - ceil((e - b) / 2)) and returns the stolen half-open range
[e - ceil((e - b) / 2), e); in particular when a single iteration remains
the thief takes it.  The ceiling ceil((e - b) / 2) is written
(e - b + 1) / 2 over Nat. -/
theorem C3_trySteal_halves_rounding_up (w : contiguousWork) :
    (w.endv ≤ w.base → w.trySteal = (w, none)) ∧
    (w.base < w.endv →
      w.trySteal = ({ w with endv := w.endv - (w.endv - w.base + 1) / 2 },
                    some (w.endv - (w.endv - w.base + 1) / 2, w.endv)) ∧
      (w.endv = w.base + 1 →
        w.trySteal = ({ w with endv := w.base }, some (w.base, w.base + 1)))) := by
  constructor
  · intro h
    simp [contiguousWork.trySteal, h]
  · intro h
    have hnot : ¬ w.base ≥ w.endv := by omega
    constructor
    · simp [contiguousWork.trySteal, hnot]
    · intro h1
      simp [contiguousWork.trySteal, hnot]
      omega

/-- Witness for C3 at the concrete descriptor (3, 10): seven iterations
remain, four are stolen, the range becomes (3, 6). -/
theorem C3_witness :
    (3 : Nat) < 10 ∧
    (contiguousWork.trySteal ⟨3, 10, false, 0⟩ =
      (⟨3, 10 - (10 - 3 + 1) / 2, false, 0⟩, some (10 - (10 - 3 + 1) / 2, 10))) :=
  ⟨by decide, ((C3_trySteal_halves_rounding_up ⟨3, 10, false, 0⟩).2 (by decide)).1⟩

/-- C9: the deque task pool refuses put exactly at capacity
TASK_POOL_MAX_SIZE = 128 and otherwise appends; get removes the most
recently put task, steal the least recently put one; StoreTask invokes the
task immediately exactly when put fails. -/
theorem C9_task_pool_deque (q : TaskPoolDeque) (t : Nat) (hq : q.wf) :
    ((q.put t).2 = false ↔ q.pool.length = TASK_POOL_MAX_SIZE) ∧
    ((q.put t).2 = true → (q.put t).1.pool = q.pool ++ [t]) ∧
    (∀ l x, q.pool = l ++ [x] →
      q.get = ({ taskCount := q.pool.length - 1, pool := l }, some x)) ∧
    (∀ x l, q.pool = x :: l →
      q.steal = ({ taskCount := q.pool.length - 1, pool := l }, some x)) ∧
    (StoreTask q t = if q.pool.length = TASK_POOL_MAX_SIZE
                     then (q, false, [t])
                     else ((q.put t).1, true, [])) := by
  obtain ⟨hcount, hcap⟩ := hq
  refine ⟨?_, ?_, ?_, ?_, ?_⟩
  · simp only [TaskPoolDeque.put]
    split
    · simpa using by omega
    · simpa using by omega
  · intro hput
    by_cases hfull : TASK_POOL_MAX_SIZE ≤ q.taskCount
    · simp [TaskPoolDeque.put, hfull] at hput
    · simp [TaskPoolDeque.put, Nat.not_le.mp hfull, hfull]
  · intro l x hpool
    have hpos : 0 < q.taskCount := by
      rw [hcount, hpool]
      simp
    simp [TaskPoolDeque.get, hpos, hpool, hcount]
  · intro x l hpool
    have hpos : 0 < q.taskCount := by
      rw [hcount, hpool]
      simp
    simp [TaskPoolDeque.steal, hpos, hpool, hcount]
  · by_cases hfull : q.pool.length = TASK_POOL_MAX_SIZE
    · have : q.taskCount ≥ TASK_POOL_MAX_SIZE := by omega
      simp [StoreTask, TaskPoolDeque.put, this, hfull]
    · have : ¬ q.taskCount ≥ TASK_POOL_MAX_SIZE := by omega
      simp [StoreTask, TaskPoolDeque.put, this, hfull]

/-- Witness for C9 at a two-element pool: put appends, get returns 9
(most recent), steal returns 7 (oldest). -/
theorem C9_witness :
    (TaskPoolDeque.wf ⟨2, [7, 9]⟩) ∧
    (TaskPoolDeque.get ⟨2, [7, 9]⟩ = (⟨1, [7]⟩, some 9)) ∧
    (TaskPoolDeque.steal ⟨2, [7, 9]⟩ = (⟨1, [9]⟩, some 7)) :=
  ⟨⟨by decide, by decide⟩,
   (C9_task_pool_deque ⟨2, [7, 9]⟩ 5 ⟨by decide, by decide⟩).2.2.1 [7] 9 rfl,
   (C9_task_pool_deque ⟨2, [7, 9]⟩ 5 ⟨by decide, by decide⟩).2.2.2.1 7 [9] rfl⟩

/-- C10: outside a parallel region omp_get_thread_num returns 0 and
omp_get_num_threads returns 1, whatever the local id and team size;
inside a region they return the local id and the team size. -/
theorem C10_icv_inquiry (team : TeamState) (localId : Nat) :
    (team.Parallel = false →
      omp_get_thread_num team localId = 0 ∧ omp_get_num_threads team = 1) ∧
    (team.Parallel = true →
      omp_get_thread_num team localId = localId ∧
      omp_get_num_threads team = team.NThreads) := by
  constructor
  · intro h
    simp [omp_get_thread_num, omp_get_num_threads, h]
  · intro h
    simp [omp_get_thread_num, omp_get_num_threads, h]

/-- Witness for C10: a team of 4 threads outside a parallel region reports
thread number 0 and 1 thread even to the thread with local id 3. -/
theorem C10_witness :
    (TeamState.Parallel ⟨4, false⟩ = false) ∧
    (omp_get_thread_num ⟨4, false⟩ 3 = 0 ∧ omp_get_num_threads ⟨4, false⟩ = 1) :=
  ⟨rfl, (C10_icv_inquiry ⟨4, false⟩ 3).1 rfl⟩

/-- C1 counterexample: the claim says the fork/join barrier drains until
the active-task counter reaches the team size N.  With N = 4, four active
tasks and four pending tasks, the fork-barrier check-in (which passes
false, see entrypoints.cc line 145 and threads.cc line 177) drains all
the way down to 0 instead of stopping at once with the counter at 4. -/
theorem C1_counterexample :
    TaskExecutionBarrier forkBarrierInternalArg 4 4 [0, 1, 2, 3] = some (0, []) ∧
    some ((0 : Nat), ([] : List Nat)) ≠ some (4, [0, 1, 2, 3]) := by
  constructor
  · rfl
  · decide

/-- C1 amended: the outer check-in wrapper drains tasks until the team
active-task counter reaches the team size when its boolean argument
(internalBarrier) is true and 0 when it is false, and only then dispatches
the virtual check-in; the fork/join barrier check-ins pass false, so the
fork barrier drain sink is 0, while the in-region full barrier passes true
and drains to N. -/
theorem C1_drain_sink (b : Bool) (N a : Nat) (ts : List Nat) (r : Nat × List Nat)
    (h : TaskExecutionBarrier b N a ts = some r) :
    r.1 = (if b then N else 0) ∧
    (∀ virtCheckIn me,
      checkInOuter virtCheckIn me b N a ts = some (virtCheckIn me, r)) ∧
    forkBarrierInternalArg = false ∧
    fullBarrierInternalArg = true := by
  refine ⟨drainLoop_stops_at_goal _ a ts r h, ?_, rfl, rfl⟩
  intro virtCheckIn me
  simp [checkInOuter, h]

/-- Witness for C1 at a join drain: two active tasks, both pending, sink 0. -/
theorem C1_witness :
    TaskExecutionBarrier false 3 2 [5, 6] = some (0, []) ∧
    ((0 : Nat), ([] : List Nat)).1 = (if false then 3 else 0) :=
  ⟨rfl, (C1_drain_sink false 3 2 [5, 6] (0, []) rfl).1⟩

/-- C5 counterexample: with N = 2 and arrival order [0, 1], the thread
receiving true from the atomic-counter check-in is the first arriver
(thread 0), not the N-th: the last (second) arriver receives false. -/
theorem C5_counterexample :
    (runCheckIns ⟨0, 2⟩ [0, 1]).2 = [(0, true), (1, false)] ∧
    (runCheckIns ⟨0, 2⟩ [0, 1]).2.getLast?.map Prod.snd ≠ some true := by
  constructor
  · rfl
  · decide

/-- Evaluating a linearized barrier round: the counter advances by one per
arrival and each arrival of thread me is reported root exactly when
me = 0. -/
theorem runCheckIns_eval (c : atomicCounter) (order : List Nat) :
    (runCheckIns c order).1 = { c with present := c.present + order.length } ∧
    (runCheckIns c order).2 = order.map (fun me => (me, decide (me = 0))) := by
  induction order generalizing c with
  | nil => simp [runCheckIns]
  | cons me rest ih =>
    obtain ⟨ih1, ih2⟩ := ih { c with present := c.present + 1 }
    refine ⟨?_, ?_⟩
    · simp only [runCheckIns, atomicCounter.checkIn, ih1, List.length_cons,
        atomicCounter.mk.injEq]
      exact ⟨by omega, trivial⟩
    · simp only [runCheckIns, atomicCounter.checkIn, ih2, List.map]

/-- C5 amended: the check-in is a single atomic increment; over a round in
which each of the N distinct threads arrives once, exactly one thread
receives true, namely thread 0 whatever its arrival position; the counter
ends at N, after which the root path waits successfully and resets it
to 0. -/
theorem C5_atomic_counter_round (N : Nat) (order : List Nat)
    (h0 : 0 ∈ order) (hnd : order.Nodup) (hlen : order.length = N) :
    ((runCheckIns ⟨0, N⟩ order).1.present = N) ∧
    ((runCheckIns ⟨0, N⟩ order).2.countP (fun p => p.2) = 1) ∧
    (∀ p ∈ (runCheckIns ⟨0, N⟩ order).2, p.2 = true → p.1 = 0) ∧
    (centralizedRootCheckIn (runCheckIns ⟨0, N⟩ order).1 = some ⟨0, N⟩) ∧
    (∀ (c : atomicCounter) (me : Nat), (c.checkIn me).1.present = c.present + 1) := by
  obtain ⟨h1, h2⟩ := runCheckIns_eval ⟨0, N⟩ order
  have hpres : (runCheckIns ⟨0, N⟩ order).1.present = N := by
    rw [h1]
    simpa using hlen
  refine ⟨hpres, ?_, ?_, ?_, ?_⟩
  · rw [h2, List.countP_map]
    have hcong : order.countP ((fun p : Nat × Bool => p.2) ∘
        fun me => (me, decide (me = 0))) = order.countP (fun me => decide (me = 0)) :=
      rfl
    have hcount : order.countP (fun me => decide (me = 0)) = order.count 0 := by
      rw [List.count_eq_countP]
      exact List.countP_congr (by intro x hx; cases x <;> rfl)
    rw [hcong, hcount]
    exact List.count_eq_one_of_mem hnd h0
  · intro p hp htrue
    rw [h2] at hp
    obtain ⟨me, hme, rfl⟩ := List.mem_map.mp hp
    simpa using htrue
  · rw [h1]
    simp [centralizedRootCheckIn, atomicCounter.reset, hlen]
  · intro c me
    rfl

/-- Witness for C5 with three threads arriving in order [2, 0, 1]: the
counter reaches 3, exactly one true is handed out and it goes to
thread 0, the second arriver. -/
theorem C5_witness :
    ((0 : Nat) ∈ [2, 0, 1] ∧ ([2, 0, 1] : List Nat).Nodup ∧
      ([2, 0, 1] : List Nat).length = 3) ∧
    ((runCheckIns ⟨0, 3⟩ [2, 0, 1]).1.present = 3 ∧
      (runCheckIns ⟨0, 3⟩ [2, 0, 1]).2.countP (fun p => p.2) = 1) := by
  refine ⟨⟨by decide, by decide, by decide⟩, ?_⟩
  have h := C5_atomic_counter_round 3 [2, 0, 1] (by decide) (by decide) (by decide)
  exact ⟨h.1, h.2.1⟩

/-- C8: a fork from inside a parallel region aborts through fatalError
with the NestedParallel diagnostic, a single newline-terminated tagged
write to standard error, and the team state unchanged; otherwise the fork
marks the team parallel-active, wakes the workers with the invocation,
runs the body on thread 0, checks in to the join barrier (with the
internal-barrier flag false), and clears the flag before returning. -/
theorem C8_fork_call (team : TeamState) (locName : String) :
    (team.Parallel = true →
      kmpc_fork_call team locName =
        .error { kind := .NestedParallel,
                 stderrWrites := [fatalErrorDiagnostic
                   ("Nested parallelism is not supported: attempted from " ++ locName)],
                 teamAtAbort := team }) ∧
    (∀ msg, fatalErrorDiagnostic msg = "LOMP:***FATAL ERROR*** " ++ msg ++ "\n") ∧
    (team.Parallel = false →
      kmpc_fork_call team locName =
        .ok ([(.wakeUpWorkers, true), (.runBodyOnMaster, true),
              (.checkInBarrier false, true)],
             { NThreads := team.NThreads, Parallel := false })) := by
  refine ⟨?_, fun msg => rfl, ?_⟩
  · intro h
    simp [kmpc_fork_call, h]
  · intro h
    simp [kmpc_fork_call, h]

/-- Witness for C8: a team of 4 already in parallel aborts with the
NestedParallel diagnostic and its state preserved at the abort. -/
theorem C8_witness :
    (TeamState.Parallel ⟨4, true⟩ = true) ∧
    (kmpc_fork_call ⟨4, true⟩ "source.c" =
      .error { kind := .NestedParallel,
               stderrWrites := [fatalErrorDiagnostic
                 ("Nested parallelism is not supported: attempted from " ++ "source.c")],
               teamAtAbort := ⟨4, true⟩ }) :=
  ⟨rfl, (C8_fork_call ⟨4, true⟩ "source.c").1 rfl⟩

/-- Any external value that internalises successfully is one of the eight
distinct external values in the schedules table. -/
theorem internalise_some_cases (k : Nat)
    (hk : (internaliseSchedule k).isSome = true) :
    k = omp_sched_static ∨ k = omp_sched_static + omp_sched_monotonic ∨
    k = omp_sched_auto ∨ k = omp_sched_guided ∨
    k = omp_sched_guided + omp_sched_monotonic ∨ k = omp_sched_dynamic ∨
    k = omp_sched_dynamic + omp_sched_monotonic ∨ k = lomp_sched_imbalanced := by
  rw [internaliseSchedule] at hk
  cases hfind : List.find? (fun s => decide (s.2.2 = k)) schedules with
  | none =>
    rw [hfind] at hk
    simp at hk
  | some s =>
    have hs : s ∈ schedules := List.mem_of_find?_eq_some hfind
    have hp := List.find?_some hfind
    simp only [schedules] at hs
    fin_cases hs <;> simp_all [omp_sched_static, omp_sched_dynamic,
      omp_sched_guided, omp_sched_auto, lomp_sched_imbalanced, omp_sched_monotonic]

/-- C4 counterexample: omp_sched_auto is a supported kind (the schedules
table carries an auto entry), but set followed by get returns
omp_sched_static, not omp_sched_auto. -/
theorem C4_counterexample :
    (internaliseSchedule omp_sched_auto).isSome = true ∧
    scheduleRoundTrip omp_sched_auto 0 = some (omp_sched_static, 0) ∧
    some (omp_sched_static, (0 : Int)) ≠ some (omp_sched_auto, (0 : Int)) := by
  refine ⟨by decide, by decide, by decide⟩

/-- C4 amended: for every supported kind the chunk round-trips unchanged;
the kind round-trips unchanged for static, guided, dynamic,
monotonic-dynamic and imbalanced, while auto and monotonic-static come
back as static and monotonic-guided comes back as guided (the table
normalizes them on the way in or out). -/
theorem C4_schedule_round_trip (c : Int) :
    (∀ k, (internaliseSchedule k).isSome = true →
      (scheduleRoundTrip k c).map Prod.snd = some c) ∧
    scheduleRoundTrip omp_sched_static c = some (omp_sched_static, c) ∧
    scheduleRoundTrip omp_sched_guided c = some (omp_sched_guided, c) ∧
    scheduleRoundTrip omp_sched_dynamic c = some (omp_sched_dynamic, c) ∧
    scheduleRoundTrip (omp_sched_dynamic + omp_sched_monotonic) c =
      some (omp_sched_dynamic + omp_sched_monotonic, c) ∧
    scheduleRoundTrip lomp_sched_imbalanced c = some (lomp_sched_imbalanced, c) ∧
    scheduleRoundTrip omp_sched_auto c = some (omp_sched_static, c) ∧
    scheduleRoundTrip (omp_sched_static + omp_sched_monotonic) c =
      some (omp_sched_static, c) ∧
    scheduleRoundTrip (omp_sched_guided + omp_sched_monotonic) c =
      some (omp_sched_guided, c) := by
  have hstep : ∀ k, (internaliseSchedule k).isSome = true →
      (scheduleRoundTrip k c).map Prod.snd = some c := by
    intro k hk
    rcases internalise_some_cases k hk with h | h | h | h | h | h | h | h <;>
      subst h <;>
      by_cases hc : c = 0 <;>
      simp [scheduleRoundTrip, setScheduleInfo, getScheduleInfo,
        internaliseSchedule, externaliseSchedule, schedules, hc,
        omp_sched_static, omp_sched_dynamic, omp_sched_guided, omp_sched_auto,
        lomp_sched_imbalanced, omp_sched_monotonic]
  refine ⟨hstep, ?_, ?_, ?_, ?_, ?_, ?_, ?_, ?_⟩ <;>
    by_cases hc : c = 0 <;>
    simp [scheduleRoundTrip, setScheduleInfo, getScheduleInfo,
      internaliseSchedule, externaliseSchedule, schedules, hc,
      omp_sched_static, omp_sched_dynamic, omp_sched_guided, omp_sched_auto,
      lomp_sched_imbalanced, omp_sched_monotonic]

/-- Witness for C4: the chunk 5 survives the round trip for auto, and
the dynamic kind round-trips exactly. -/
theorem C4_witness :
    (internaliseSchedule omp_sched_auto).isSome = true ∧
    (scheduleRoundTrip omp_sched_auto 5).map Prod.snd = some (5 : Int) ∧
    scheduleRoundTrip omp_sched_dynamic 5 = some (omp_sched_dynamic, 5) :=
  ⟨by decide, (C4_schedule_round_trip 5).1 omp_sched_auto (by decide),
   (C4_schedule_round_trip 5).2.2.2.1⟩

/-- C6 counterexample: with one chunk remaining and two threads the code
advances the guided cursor by 1 chunk, while the formula of the claim,
(remaining + N - 1) / N / 2 under integer division, yields 0 (also
contradicting the at-least-1 part of the claim itself). -/
theorem C6_counterexample :
    (dispatchGuided (canonicalLoop.init 0 1) 2 0).map (fun r => r.2) = some 1 ∧
    ((canonicalLoop.init 0 1).count - 0 + 2 - 1) / 2 / 2 = 0 ∧
    (1 : Nat) ≠ 0 := by
  refine ⟨by decide, by decide, by decide⟩

/-- C6 amended: a successful guided dispatch with remaining = count - v
chunks left advances the shared cursor by exactly
((remaining + N - 1) / N + 1) / 2 chunks, the half of the ceiling fair
share rounded up; this is at least 1 and never overruns the chunk count;
with nothing remaining the call returns no work. -/
theorem C6_guided_delta (cl : canonicalLoop) (N v : Nat) (hN : 0 < N) :
    (dispatchGuided cl N cl.count = none) ∧
    (v < cl.count →
      ((dispatchGuided cl N v).map (fun r => r.2) =
        some (v + ((cl.count - v + N - 1) / N + 1) / 2)) ∧
      1 ≤ ((cl.count - v + N - 1) / N + 1) / 2 ∧
      v + ((cl.count - v + N - 1) / N + 1) / 2 ≤ cl.count) := by
  constructor
  · simp [dispatchGuided]
  · intro hv
    have hr0 : ¬ (cl.count - v = 0) := by omega
    refine ⟨by simp [dispatchGuided, hr0], ?_, ?_⟩
    · have h1 : 1 ≤ (cl.count - v + N - 1) / N := by
        rw [Nat.one_le_div_iff hN]
        omega
      omega
    · have hrN : cl.count - v ≤ (cl.count - v) * N :=
        Nat.le_mul_of_pos_right _ hN
      have h2 : (cl.count - v + N - 1) / N < cl.count - v + 1 := by
        rw [Nat.div_lt_iff_lt_mul hN, Nat.add_mul]
        omega
      omega

/-- Witness for C6 on a 10-chunk loop with 3 threads and cursor 4: six
chunks remain, the fair share is 2, the cursor advances by 1... the
computed delta, and stays within the count. -/
theorem C6_witness :
    ((0 : Nat) < 3 ∧ (4 : Nat) < (canonicalLoop.init 9 1).count) ∧
    ((dispatchGuided (canonicalLoop.init 9 1) 3 4).map (fun r => r.2) =
      some (4 + (((canonicalLoop.init 9 1).count - 4 + 3 - 1) / 3 + 1) / 2)) :=
  ⟨⟨by decide, by decide⟩,
   ((C6_guided_delta (canonicalLoop.init 9 1) 3 4 (by decide)).2 (by decide)).1⟩

/-- C7 counterexample: on a 10-chunk loop with scale 1 and 2 threads, the
dispatch for static-cyclic reports stride 6, not the claimed
N * scale = 2. -/
theorem C7_counterexample :
    (dispatchStaticChunked (canonicalLoop.init 9 1) 2 0).map
      (fun r => r.1.p_st) = some 6 ∧
    ((6 : Int) ≠ (2 : Int) * (canonicalLoop.init 9 1).scale) := by
  refine ⟨by decide, by decide⟩

/-- C7 amended: the static init for schedule(static, c) reports stride
N * scale, first chunk at me * scale, and the last-iteration flag exactly
for thread (count - 1) mod N; each dynamic dispatch call returns the
bounds of the chunk at the cursor and advances the cursor by N, but the
stride it reports is N * getStride(cursor, cursor + N), which equals
N * ((N + 1) * scale) away from the last chunk, not N * scale. -/
theorem C7_static_cyclic (cl : canonicalLoop) (N me cursor : Nat)
    (hc : 0 < cl.count) (hN : 0 < N) :
    (∀ lower0 upper0,
      cl.forStaticInit .sch_static_chunked me N lower0 upper0 =
        some { plastIter := decide (me = (cl.count - 1) % N),
               plower := (me : Int) * cl.scale,
               pupper := ((me : Int) + 1) * cl.scale - 1,
               pstride := (N : Int) * cl.scale,
               retval := decide (me < cl.count) }) ∧
    (cl.count ≤ cursor → dispatchStaticChunked cl N cursor = none) ∧
    (cursor < cl.count →
      dispatchStaticChunked cl N cursor =
        some ({ p_lb := cl.getChunkLower (cursor : Int),
                p_ub := cl.getChunkUpper (cursor : Int),
                p_st := (N : Int) *
                  cl.getStride (cursor : Int) ((cursor : Int) + (N : Int)),
                p_last := cl.isLastChunk (cursor : Int) }, cursor + N)) ∧
    (cursor < cl.count → cursor + N + 1 ≠ cl.count →
      (dispatchStaticChunked cl N cursor).map (fun r => r.1.p_st) =
        some ((N : Int) * (((N : Int) + 1) * cl.scale))) := by
  have h0 : cl.count ≠ 0 := by omega
  refine ⟨?_, ?_, ?_, ?_⟩
  · intro lower0 upper0
    simp [canonicalLoop.forStaticInit, h0]
  · intro h
    simp [dispatchStaticChunked, h]
  · intro h
    have hcur : ¬ cursor ≥ cl.count := by omega
    simp [dispatchStaticChunked, hcur]
  · intro h hne
    have hcur : ¬ cursor ≥ cl.count := by omega
    have hlast : cl.isLastChunk ((cursor : Int) + (N : Int)) = false := by
      simp only [canonicalLoop.isLastChunk, beq_eq_false_iff_ne, ne_eq]
      omega
    simp [dispatchStaticChunked, hcur, canonicalLoop.getStride,
      canonicalLoop.getChunkUpper, canonicalLoop.getChunkLower, hlast]
    left
    ring

/-- Witness for C7 on a 5-chunk loop of scale 2 with 2 threads, thread 1,
cursor 1: the init hands thread 1 stride 4 and first chunk lower 2; the
dispatch at cursor 1 advances the cursor to 3. -/
theorem C7_witness :
    ((0 : Nat) < (canonicalLoop.init 9 2).count ∧ (0 : Nat) < 2) ∧
    ((canonicalLoop.init 9 2).forStaticInit .sch_static_chunked 1 2 0 9 =
      some { plastIter := decide (1 = ((canonicalLoop.init 9 2).count - 1) % 2),
             plower := (1 : Int) * (canonicalLoop.init 9 2).scale,
             pupper := ((1 : Int) + 1) * (canonicalLoop.init 9 2).scale - 1,
             pstride := (2 : Int) * (canonicalLoop.init 9 2).scale,
             retval := decide (1 < (canonicalLoop.init 9 2).count) }) :=
  ⟨⟨by decide, by decide⟩,
   (C7_static_cyclic (canonicalLoop.init 9 2) 2 1 1 (by decide) (by decide)).1 0 9⟩

/-! ## C2: static blocked distribution -/

theorem unitLoop_count (count : Nat) : (unitLoop count).count = count := by
  simp only [unitLoop, canonicalLoop.init]
  omega

theorem unitLoop_scale (count : Nat) : (unitLoop count).scale = 1 := rfl

theorem unitLoop_loopEnd (count : Nat) :
    (unitLoop count).loopEnd = (count : Int) - 1 := rfl

/-- With scale 1 the upper bound of every chunk is its own index: the
last-chunk clip to the loop end coincides with the generic formula. -/
theorem unitLoop_getChunkUpper (count : Nat) (k : Int) :
    (unitLoop count).getChunkUpper k = k := by
  simp only [canonicalLoop.getChunkUpper, canonicalLoop.isLastChunk,
    canonicalLoop.getChunkLower, unitLoop_count, unitLoop_scale,
    unitLoop_loopEnd]
  split
  next hlast =>
    have : k + 1 = (count : Int) := by simpa using hlast
    omega
  next => ring

/-- The step the start indices take from one thread to the next: a whole
share, plus one of the leftover chunks for the first count mod N threads. -/
theorem startId_succ (count N me : Nat) :
    startId count N (me + 1) =
      startId count N me + count / N + (if me < count % N then 1 else 0) := by
  by_cases h : me < count % N
  · have h1 : min me (count % N) = me := by omega
    have h2 : min (me + 1) (count % N) = me + 1 := by omega
    simp only [startId, Nat.succ_mul, h, if_true, h1, h2]
    omega
  · have h1 : min me (count % N) = count % N := by omega
    have h2 : min (me + 1) (count % N) = count % N := by omega
    simp only [startId, Nat.succ_mul, h, if_false, h1, h2]
    omega

theorem startId_zero (count N : Nat) : startId count N 0 = 0 := by
  simp [startId]

theorem startId_mono (count N : Nat) : Monotone (startId count N) := by
  apply monotone_nat_of_le_succ
  intro me
  rw [startId_succ]
  generalize count / N = q
  generalize (if me < count % N then 1 else 0 : Nat) = t
  omega

theorem startId_top (count N : Nat) (hN : 0 < N) : startId count N N = count := by
  have hmod : count % N < N := Nat.mod_lt _ hN
  have hmin : min N (count % N) = count % N := by omega
  rw [startId, hmin]
  exact Nat.div_add_mod count N

/-- forStaticInit with the blocked static schedule on the unit loop: the
block of thread me is exactly [startId me, startId (me + 1) - 1], the
stride is the chunk count, and the last-iteration flag picks thread
N - 1, or thread count - 1 when there are fewer chunks than threads. -/
theorem forStaticInit_blocked (count N me : Nat) (hc : 0 < count) :
    (unitLoop count).forStaticInit .sch_static me N 0 (unitLoop count).loopEnd =
      some { plastIter := if count < N then decide (me + 1 = count)
                          else decide (me + 1 = N),
             plower := (startId count N me : Int),
             pupper := (startId count N (me + 1) : Int) - 1,
             pstride := (count : Int),
             retval := decide (me < count) } := by
  have h0 : ¬ (count = 0) := by omega
  by_cases hlt : me < count % N
  · have hmin1 : min me (count % N) = me := by omega
    have hmin2 : min (me + 1) (count % N) = me + 1 := by omega
    simp only [canonicalLoop.forStaticInit, unitLoop_count, h0, if_false,
      unitLoop_getChunkUpper, canonicalLoop.getChunkLower, unitLoop_scale,
      hlt, if_true, startId, hmin1, hmin2, Option.some_inj,
      staticInitResult.mk.injEq]
    generalize count / N = q
    refine ⟨trivial, ?_, ?_, trivial, trivial⟩ <;> (push_cast; ring)
  · have hmin1 : min me (count % N) = count % N := by omega
    have hmin2 : min (me + 1) (count % N) = count % N := by omega
    simp only [canonicalLoop.forStaticInit, unitLoop_count, h0, if_false,
      unitLoop_getChunkUpper, canonicalLoop.getChunkLower, unitLoop_scale,
      hlt, if_false, startId, hmin1, hmin2, Option.some_inj,
      staticInitResult.mk.injEq]
    generalize count / N = q
    generalize count % N = r
    refine ⟨trivial, ?_, ?_, trivial, trivial⟩ <;> (push_cast; ring)

theorem blockOf_eq (count N me : Nat) (hc : 0 < count) :
    blockOf (unitLoop count) N me =
      Finset.Icc ((startId count N me : Int))
        ((startId count N (me + 1) : Int) - 1) := by
  rw [blockOf, forStaticInit_blocked count N me hc]
  rfl

/-- A value below the top of a staircase lies in one of its steps. -/
theorem exists_staircase_step (f : Nat → Nat) :
    ∀ (N k : Nat), f 0 ≤ k → k < f N →
      ∃ me, me < N ∧ f me ≤ k ∧ k < f (me + 1) := by
  intro N
  induction N with
  | zero =>
    intro k h1 h2
    omega
  | succ n ih =>
    intro k h1 h2
    by_cases h : k < f n
    · obtain ⟨me, h3, h4, h5⟩ := ih k h1 h
      exact ⟨me, by omega, h4, h5⟩
    · exact ⟨n, by omega, by omega, h2⟩

/-- C2: the blocked static init gives thread me the contiguous chunk block
starting at me * (whole + 1) when me is below rem = count mod N, of size
whole + 1 for those threads and whole for the others
(whole = count / N); the blocks are pairwise disjoint and their union is
exactly the chunk interval [0, count - 1]; the last-iteration flag is set
exactly for thread N - 1, or thread count - 1 when N exceeds count. -/
theorem C2_static_blocked_partition (count N : Nat) (hc : 0 < count) (hN : 0 < N) :
    (∀ me, me < count % N →
      blockOf (unitLoop count) N me =
        Finset.Icc ((me * (count / N + 1) : Nat) : Int)
          ((me * (count / N + 1) + count / N : Nat) : Int) ∧
      (blockOf (unitLoop count) N me).card = count / N + 1) ∧
    (∀ me, count % N ≤ me → me < N →
      (blockOf (unitLoop count) N me).card = count / N) ∧
    (∀ me1 me2, me1 < N → me2 < N → me1 ≠ me2 →
      Disjoint (blockOf (unitLoop count) N me1) (blockOf (unitLoop count) N me2)) ∧
    ((Finset.range N).biUnion (fun me => blockOf (unitLoop count) N me) =
      Finset.Icc (0 : Int) ((count : Int) - 1)) ∧
    (∀ me, ((unitLoop count).forStaticInit .sch_static me N 0
        (unitLoop count).loopEnd).map staticInitResult.plastIter =
      some (decide (me = if count < N then count - 1 else N - 1))) := by
  have hcard : ∀ me, (blockOf (unitLoop count) N me).card =
      count / N + (if me < count % N then 1 else 0) := by
    intro me
    rw [blockOf_eq count N me hc, Int.card_Icc, startId_succ]
    generalize count / N = q
    generalize (if me < count % N then 1 else 0 : Nat) = t
    omega
  have hdisj : ∀ me1 me2, me1 < me2 →
      Disjoint (blockOf (unitLoop count) N me1) (blockOf (unitLoop count) N me2) := by
    intro me1 me2 h12
    rw [blockOf_eq count N me1 hc, blockOf_eq count N me2 hc,
      Finset.disjoint_left]
    intro x hx1 hx2
    rw [Finset.mem_Icc] at hx1 hx2
    have hstep : startId count N (me1 + 1) ≤ startId count N me2 :=
      startId_mono count N (by omega)
    omega
  refine ⟨?_, ?_, ?_, ?_, ?_⟩
  · intro me hme
    constructor
    · rw [blockOf_eq count N me hc]
      have h1 : startId count N me = me * (count / N + 1) := by
        have : min me (count % N) = me := by omega
        simp only [startId, this]
        ring
      have h2 : startId count N (me + 1) = me * (count / N + 1) + count / N + 1 := by
        rw [startId_succ, h1]
        simp only [hme, if_true]
      rw [h1, h2]
      congr 1
      push_cast
      ring
    · rw [hcard me]
      simp [hme]
  · intro me hme hmeN
    rw [hcard me]
    have : ¬ me < count % N := by omega
    simp [this]
  · intro me1 me2 h1 h2 hne
    rcases Nat.lt_or_ge me1 me2 with h | h
    · exact hdisj me1 me2 h
    · exact (hdisj me2 me1 (by omega)).symm
  · ext k
    simp only [Finset.mem_biUnion, Finset.mem_range, Finset.mem_Icc]
    constructor
    · rintro ⟨me, hme, hk⟩
      rw [blockOf_eq count N me hc, Finset.mem_Icc] at hk
      have hlow : startId count N 0 ≤ startId count N me :=
        startId_mono count N (by omega)
      have hhigh : startId count N (me + 1) ≤ startId count N N :=
        startId_mono count N (by omega)
      rw [startId_zero] at hlow
      rw [startId_top count N hN] at hhigh
      have hc1 : ((startId count N me : Nat) : Int) ≥ 0 := by positivity
      have hc2 : ((startId count N (me + 1) : Nat) : Int) ≤ (count : Int) := by
        exact_mod_cast hhigh
      omega
    · rintro ⟨hk0, hkc⟩
      have htop : k.toNat < startId count N N := by
        rw [startId_top count N hN]
        omega
      have hbot : startId count N 0 ≤ k.toNat := by
        rw [startId_zero]
        omega
      obtain ⟨me, hmeN, hle, hlt⟩ :=
        exists_staircase_step (startId count N) N k.toNat hbot htop
      refine ⟨me, hmeN, ?_⟩
      rw [blockOf_eq count N me hc, Finset.mem_Icc]
      omega
  · intro me
    rw [forStaticInit_blocked count N me hc]
    by_cases h : count < N <;>
      simp only [Option.map_some', h, if_true, if_false, Option.some_inj,
        decide_eq_decide] <;>
      omega

/-- Witness for C2 with 20 chunks over 4 threads: the four blocks cover
exactly the chunks 0 to 19, and thread 1 gets the 5 chunks from 5 to 9. -/
theorem C2_witness :
    ((0 : Nat) < 20 ∧ (0 : Nat) < 4) ∧
    ((Finset.range 4).biUnion (fun me => blockOf (unitLoop 20) 4 me) =
      Finset.Icc (0 : Int) ((20 : Int) - 1)) :=
  ⟨⟨by decide, by decide⟩,
   (C2_static_blocked_partition 20 4 (by decide) (by decide)).2.2.2.1⟩

end lomp
